import Mathlib

/-!
Verification of pyinit (src/pyinit/cli.py), a single-command CLI that
scaffolds a new Python project.  The command handler `cli` is embedded as a
pure function from a validated configuration, an initial filesystem state, an
external-tool oracle (mapping each subprocess command line to a success bit,
modelling its exit status), and the current calendar year, to an exit code, a
final filesystem state, and a trace of observable events.

Modelling conventions:
- A path is a list of segments relative to the working directory;
  `os.path.abspath(project_name)` becomes the one-segment path
  `[project_name]`.  Validated project names are single path segments.
- `subprocess.run(cmd, check=True)` becomes an `exec` event carrying the
  command line and the oracle's success bit; a raised `CalledProcessError`
  that is not caught aborts the run with exit code 1 (the behaviour of an
  uncaught exception in a typer command).
- Filesystem effects of the external tools themselves (poetry writing
  `pyproject.toml`, `python -m venv` creating the `venv` directory, `git
  init` creating `.git`) are modelled as write/mkdir events emitted directly
  after the successful exec event; these effects are modelled from the spec,
  since the tools are external collaborators.
- `typer.echo` calls become `echo` events with the quoting punctuation of the
  original f-strings elided.
-/

namespace PyInit

/-- A filesystem path as a list of segments relative to the working
directory. -/
abbrev Path := List String

/-- Joins path segments with the separator, as `os.path.join` does on a
POSIX system. -/
def pathStr (p : Path) : String := String.intercalate "/" p

/-- All nonempty prefixes of a path, shortest first: exactly the directories
that `os.makedirs` brings into existence when asked for the full path. -/
def prefixesOf : Path → List Path
  | [] => []
  | a :: rest => [a] :: (prefixesOf rest).map (fun q => a :: q)

/-- Filesystem state: the set of existing directories and the set of
existing files with their contents, both as lists. -/
structure FS where
  dirs : List Path
  files : List (Path × String)
deriving DecidableEq

/-- Model of `os.path.exists`: true if the path is an existing directory or
an existing file. -/
def FS.pathExists (fs : FS) (p : Path) : Bool :=
  fs.dirs.any (fun d => decide (d = p)) || fs.files.any (fun f => decide (f.1 = p))

/-- One piece of a Jinja2 template: literal text or a variable
interpolation. -/
inductive TPart
  | lit (s : String)
  | var (key : String)
deriving DecidableEq

/-- A Jinja2 template, as the sequence of its parts. -/
abbrev Template := List TPart

/-- The rendering context: the flat key/value mapping passed to
`template.render(**context)`.  The integer `year` value is stringified, as
Jinja2 does when interpolating it. -/
abbrev Context := List (String × String)

/-- Dictionary lookup in the rendering context. -/
def lookupCtx : Context → String → Option String
  | [], _ => none
  | (k, v) :: rest, key => if k = key then some v else lookupCtx rest key

/-- Jinja2 rendering as configured by the `Environment(...)` in cli.py.  The
environment does not set `undefined=StrictUndefined`, so an undefined
variable is an instance of the default `Undefined` class, which renders as
the empty string; the error channel (`Except.error`) exists in the type to
make the strict policy expressible, but this renderer never uses it. -/
def render : Template → Context → Except String String
  | [], _ => Except.ok ""
  | TPart.lit s :: rest, ctx => (render rest ctx).map (fun r => s ++ r)
  | TPart.var k :: rest, ctx =>
      match lookupCtx ctx k with
      | some v => (render rest ctx).map (fun r => v ++ r)
      | none => (render rest ctx).map (fun r => "" ++ r)

/-- Total evaluation of the same renderer (the string actually produced). -/
def renderStr : Template → Context → String
  | [], _ => ""
  | TPart.lit s :: rest, ctx => s ++ renderStr rest ctx
  | TPart.var k :: rest, ctx => (lookupCtx ctx k).getD "" ++ renderStr rest ctx

/-- Modelled from the spec: the repository's `templates/` directory is not
under src/, so the template texts are modelled from the spec (section 6
filesystem layout; section 8 "the rendered README and package manifest
contain the exact project_name and author strings").  Each template starts
with nonempty literal text and references only keys of the run's context. -/
def readmeTemplate : Template :=
  [TPart.lit "# ", TPart.var "project_name", TPart.lit "\n\n",
   TPart.var "description", TPart.lit "\nAuthor: ", TPart.var "author", TPart.lit "\n"]

/-- Modelled from the spec: gitignore template (venv directory is excluded). -/
def gitignoreTemplate : Template :=
  [TPart.lit "venv/\n__pycache__/\n"]

/-- Modelled from the spec: Makefile template. -/
def makefileTemplate : Template :=
  [TPart.lit "test:\n\tpytest tests\n"]

/-- Modelled from the spec: license template with year and author. -/
def licenseTemplate : Template :=
  [TPart.lit "Copyright (c) ", TPart.var "year", TPart.lit " ", TPart.var "author",
   TPart.lit "\nLicense: ", TPart.var "license", TPart.lit "\n"]

/-- Modelled from the spec: requirements template. -/
def requirementsTemplate : Template :=
  [TPart.lit "pytest\n"]

/-- Modelled from the spec: test module template. -/
def testTemplate : Template :=
  [TPart.lit "import ", TPart.var "project_name", TPart.lit "\n\ndef test_smoke():\n    assert True\n"]

/-- Modelled from the spec: package init module template. -/
def srcInitTemplate : Template :=
  [TPart.lit "\x22\x22\x22", TPart.var "description", TPart.lit "\x22\x22\x22\n"]

/-- Modelled from the spec: GitHub Actions workflow template. -/
def ciTemplate : Template :=
  [TPart.lit "name: CI\non: push\n"]

/-- Modelled from the spec: Dependabot configuration template. -/
def dependabotTemplate : Template :=
  [TPart.lit "version: 2\n"]

/-- Model of `env.get_template` restricted to the nine template names that
cli.py requests; any other name yields the empty template (cli.py never
requests one). -/
def templateOf : String → Template
  | "README.md.j2" => readmeTemplate
  | ".gitignore.j2" => gitignoreTemplate
  | "Makefile.j2" => makefileTemplate
  | "LICENSE.j2" => licenseTemplate
  | "requirements.txt.j2" => requirementsTemplate
  | "test_project.py.j2" => testTemplate
  | "src_init.py.j2" => srcInitTemplate
  | "ci.yml.j2" => ciTemplate
  | "dependabot.yml.j2" => dependabotTemplate
  | _ => []

/-- Model of `render_template(template_name, **context)` from cli.py: fetch
the template and render it with the given context. -/
def render_template (name : String) (ctx : Context) : String :=
  renderStr (templateOf name) ctx

/-- The `--license` choice, mirroring `class LicenseType(str, Enum)`. -/
inductive LicenseType
  | MIT
  | Apache
  | GPL
deriving DecidableEq

/-- The `.value` string of each license enum member. -/
def LicenseType.value : LicenseType → String
  | LicenseType.MIT => "MIT"
  | LicenseType.Apache => "Apache-2.0"
  | LicenseType.GPL => "GPL-3.0"

/-- The validated configuration produced by the argument layer of `cli`:
the project name argument plus the option values. -/
structure Config where
  project_name : String
  description : String
  author : String
  email : String
  license : LicenseType
  venv : Bool
  git : Bool
  ci : Bool
  interactive : Bool

/-- The template-rendering context built in `cli` (lines 96-103): project
metadata plus the current calendar year. -/
def buildContext (cfg : Config) (year : Nat) : Context :=
  [("project_name", cfg.project_name),
   ("description", cfg.description),
   ("author", cfg.author),
   ("email", cfg.email),
   ("license", cfg.license.value),
   ("year", toString year)]

/-- The template-name to output-path table of `cli` (lines 106-116), in its
insertion order. -/
def templates (name : String) : List (String × Path) :=
  [("README.md.j2", ["README.md"]),
   (".gitignore.j2", [".gitignore"]),
   ("Makefile.j2", ["Makefile"]),
   ("LICENSE.j2", ["LICENSE"]),
   ("requirements.txt.j2", ["requirements.txt"]),
   ("test_project.py.j2", ["tests", "test_" ++ name ++ ".py"]),
   ("src_init.py.j2", ["src", name, "__init__.py"]),
   ("ci.yml.j2", [".github", "workflows", "ci.yml"]),
   ("dependabot.yml.j2", [".github", "dependabot.yml"])]

/-- The subdirectories created before rendering (lines 119-123). -/
def subdirs (name : String) : List Path :=
  [[name, "src", name], [name, "tests"], [name, ".github", "workflows"]]

/-- The `poetry init` command line (lines 142-144): `--no-interaction` is
appended exactly when the interactive flag is not set. -/
def poetryCmd (cfg : Config) : List String :=
  ["poetry", "init"] ++ (if cfg.interactive then [] else ["--no-interaction"])

/-- The `python -m venv` command line (line 163); `os.sys.executable` is
modelled as the name python. -/
def venvCreateCmd (name : String) : List String :=
  ["python", "-m", "venv", pathStr [name, "venv"]]

/-- The pip executable inside the created venv, POSIX branch of line 167. -/
def pipExe (name : String) : String := pathStr [name, "venv", "bin", "pip"]

/-- The pip self-upgrade command line (line 170). -/
def pipUpgradeCmd (name : String) : List String :=
  [pipExe name, "install", "--upgrade", "pip"]

/-- The dependency-install command line (line 171). -/
def pipInstallCmd (name : String) : List String :=
  [pipExe name, "install", "-r", pathStr [name, "requirements.txt"]]

/-- The `git init` command line (line 177). -/
def gitInitCmd : List String := ["git", "init"]

/-- The `git add .` command line (line 178). -/
def gitAddCmd : List String := ["git", "add", "."]

/-- The `git commit` command line (line 179). -/
def gitCommitCmd : List String := ["git", "commit", "-m", "Initial commit"]

/-- Which post-init step a subprocess invocation belongs to, by its call
site in `cli`.  The CI/CD step has no invocation of its own (it only echoes),
so no tag exists for it; its place in the fixed order is rank 1. -/
inductive StepTag
  | poetryInit
  | venvSetup
  | versionControl
deriving DecidableEq

/-- The position of each invoking step in the fixed post-init order
poetry (0) , CI/CD no-op (1) , venv (2) , version control (3). -/
def StepTag.rank : StepTag → Nat
  | StepTag.poetryInit => 0
  | StepTag.venvSetup => 2
  | StepTag.versionControl => 3

/-- An observable event of a run: a directory creation (`os.makedirs`), a
file write, a subprocess invocation with its success bit, or a console
echo. -/
inductive Event
  | mkdir (p : Path)
  | write (p : Path) (content : String)
  | exec (step : StepTag) (cmd : List String) (ok : Bool)
  | echo (msg : String)
deriving DecidableEq

/-- The filesystem effect of one event: `mkdir p` brings the path and all
its ancestors into existence, `write` records the file, exec and echo leave
the filesystem unchanged (external-tool effects appear as their own
mkdir/write events). -/
def FS.applyEvent (fs : FS) : Event → FS
  | Event.mkdir p => { fs with dirs := prefixesOf p ++ fs.dirs }
  | Event.write p c => { fs with files := (p, c) :: fs.files }
  | Event.exec _ _ _ => fs
  | Event.echo _ => fs

/-- Replays a trace of events against a filesystem state. -/
def replay (fs : FS) (tr : List Event) : FS := tr.foldl FS.applyEvent fs

/-- The materialization events of `cli` (lines 92-139): create the project
root, create the subdirectories, then for each table entry render the
template, ensure the parent directory of the output path exists
(`os.makedirs(os.path.dirname(output_path), exist_ok=True)`), and write the
rendered content. -/
def matEvents (cfg : Config) (year : Nat) : List Event :=
  let root : Path := [cfg.project_name]
  let ctx := buildContext cfg year
  [Event.mkdir root, Event.echo ("Created project directory: " ++ pathStr root)] ++
  (subdirs cfg.project_name).flatMap
    (fun d => [Event.mkdir d, Event.echo ("Created directory: " ++ pathStr d)]) ++
  (templates cfg.project_name).flatMap
    (fun t =>
      let out := root ++ t.2
      [Event.mkdir out.dropLast,
       Event.write out (render_template t.1 ctx),
       Event.echo ("Created file: " ++ pathStr out)])

/-- Modelled from the spec: on success, `poetry init` produces the
pyproject-equivalent manifest in the project root (spec section 6; the
repository's test asserts `pyproject.toml` exists after the run). -/
def pyprojectContent (cfg : Config) : String :=
  "[tool.poetry]\nname = " ++ cfg.project_name ++ "\n"

/-- The poetry step of `cli` (lines 141-152): run `poetry init` in the
project root; on success the manifest appears, on failure (caught
`CalledProcessError`) the step reports the error and the run aborts.  The
first component is the success bit. -/
def poetryEvents (cfg : Config) (oracle : List String → Bool) : Bool × List Event :=
  (oracle (poetryCmd cfg),
   [Event.echo "Initializing Poetry...",
    Event.exec StepTag.poetryInit (poetryCmd cfg) (oracle (poetryCmd cfg))] ++
   (if oracle (poetryCmd cfg) then
      [Event.write [cfg.project_name, "pyproject.toml"] (pyprojectContent cfg),
       Event.echo "Poetry initialization completed."]
    else
      [Event.echo "Error during Poetry initialization."]))

/-- The CI/CD step of `cli` (lines 154-157): when the flag is set it only
echoes; the workflow and dependabot files were already written during
materialization. -/
def ciEvents (cfg : Config) : List Event :=
  if cfg.ci then [Event.echo "CI/CD configurations already set up via templates."] else []

/-- The venv step of `cli` (lines 159-172): when the flag is set, create the
virtual environment, then upgrade pip, then install the requirements; each
subprocess uses check=True with no surrounding try, so the first failure
raises an uncaught `CalledProcessError` and aborts the run.  The first
component is the success bit of the whole step. -/
def venvEvents (cfg : Config) (oracle : List String → Bool) : Bool × List Event :=
  if cfg.venv then
    let name := cfg.project_name
    let e0 : List Event :=
      [Event.echo "Creating virtual environment...",
       Event.exec StepTag.venvSetup (venvCreateCmd name) (oracle (venvCreateCmd name))]
    if oracle (venvCreateCmd name) then
      let e1 : List Event := e0 ++
        [Event.mkdir [name, "venv"],
         Event.echo ("Created virtual environment at " ++ pathStr [name, "venv"]),
         Event.exec StepTag.venvSetup (pipUpgradeCmd name) (oracle (pipUpgradeCmd name))]
      if oracle (pipUpgradeCmd name) then
        let e2 : List Event := e1 ++
          [Event.exec StepTag.venvSetup (pipInstallCmd name) (oracle (pipInstallCmd name))]
        if oracle (pipInstallCmd name) then
          (true, e2 ++ [Event.echo "Installed project dependencies."])
        else (false, e2)
      else (false, e1)
    else (false, e0)
  else (true, [])

/-- The version-control step of `cli` (lines 174-183): `git init`, `git add
.`, `git commit` in the project root inside one try/except catching
`CalledProcessError`; the first failing command skips the remaining ones and
is only reported, never fatal.  On a successful `git init` the repository
directory appears. -/
def gitEvents (name : String) (oracle : List String → Bool) : List Event :=
  let e0 : List Event := [Event.exec StepTag.versionControl gitInitCmd (oracle gitInitCmd)]
  if oracle gitInitCmd then
    let e1 : List Event := e0 ++
      [Event.mkdir [name, ".git"],
       Event.exec StepTag.versionControl gitAddCmd (oracle gitAddCmd)]
    if oracle gitAddCmd then
      let e2 : List Event := e1 ++
        [Event.exec StepTag.versionControl gitCommitCmd (oracle gitCommitCmd)]
      if oracle gitCommitCmd then
        e2 ++ [Event.echo "Initialized Git repository and made the initial commit."]
      else e2 ++ [Event.echo "Git initialization failed."]
    else e1 ++ [Event.echo "Git initialization failed."]
  else e0 ++ [Event.echo "Git initialization failed."]

/-- The exit code and event trace of the body of `cli` after the existence
pre-check has passed: materialization, then the poetry step (fatal on
failure), the CI/CD echo, the venv step (fatal on failure), the
version-control step (never fatal), and the final success echo. -/
def runTrace (cfg : Config) (oracle : List String → Bool) (year : Nat) : Nat × List Event :=
  let mat := matEvents cfg year
  let pe := (poetryEvents cfg oracle).2
  if (poetryEvents cfg oracle).1 then
    let ce := ciEvents cfg
    let ve := (venvEvents cfg oracle).2
    if (venvEvents cfg oracle).1 then
      let ge := if cfg.git then gitEvents cfg.project_name oracle else []
      (0, mat ++ pe ++ ce ++ ve ++ ge ++
          [Event.echo ("Project " ++ cfg.project_name ++ " has been successfully initialized!")])
    else (1, mat ++ pe ++ ce ++ ve)
  else (1, mat ++ pe)

/-- The result of one invocation of `cli`: exit code, final filesystem
state, and the trace of observable events. -/
structure RunResult where
  exit : Nat
  fs : FS
  trace : List Event
deriving DecidableEq

/-- The command handler `cli` (lines 69-184): if the destination already
exists, report and exit with code 1 touching nothing; otherwise materialize
the project and run the post-init steps. -/
def run (cfg : Config) (fs : FS) (oracle : List String → Bool) (year : Nat) : RunResult :=
  let root : Path := [cfg.project_name]
  if fs.pathExists root then
    ⟨1, fs, [Event.echo ("Error: Directory " ++ pathStr root ++ " already exists.")]⟩
  else
    let r := runTrace cfg oracle year
    ⟨r.1, replay fs r.2, r.2⟩

/-- The subprocess invocations of a trace, with their step tags. -/
def execEvents (tr : List Event) : List (StepTag × List String) :=
  tr.filterMap (fun e =>
    match e with
    | Event.exec t c _ => some (t, c)
    | _ => none)

/-- The filesystem-changing events of a trace (echoes and bare subprocess
invocations removed). -/
def fsEvents (tr : List Event) : List Event :=
  tr.filter (fun e =>
    match e with
    | Event.mkdir _ => true
    | Event.write _ _ => true
    | _ => false)

/-- Membership test on a directory list. -/
def dirListHas (l : List Path) (q : Path) : Bool := l.any (fun d => decide (d = q))

/-- Checks, along a trace, that at the moment of every file-write event all
proper ancestor directories of the written path already exist. -/
def writesSafe (fs : FS) : List Event → Bool
  | [] => true
  | e :: rest =>
      (match e with
       | Event.write p _ => (prefixesOf p.dropLast).all (fun q => dirListHas fs.dirs q)
       | _ => true) && writesSafe (fs.applyEvent e) rest

/-- A concrete configuration used for closed instances: the example scenario
of the spec with all three optional flags set. -/
def demoCfg : Config :=
  ⟨"demo", "A new Python project.", "Your Name", "you@example.com", LicenseType.MIT,
   true, true, true, false⟩

/-- A concrete configuration with no optional flags set. -/
def plainCfg : Config :=
  ⟨"demo", "A new Python project.", "Your Name", "you@example.com", LicenseType.MIT,
   false, false, false, false⟩

/-- The empty filesystem. -/
def fs0 : FS := ⟨[], []⟩

/-- A filesystem in which the demo destination directory already exists. -/
def fsDemo : FS := ⟨[["demo"]], []⟩

/-- An external-tool oracle under which every subprocess succeeds. -/
def oracleAll : List String → Bool := fun _ => true

/-- An external-tool oracle under which `git init` exits non-zero and every
other subprocess succeeds. -/
def oracleNoGit : List String → Bool := fun c => !(decide (c = gitInitCmd))

/-- An external-tool oracle under which non-interactive `poetry init` exits
non-zero and every other subprocess succeeds. -/
def oracleNoPoetry : List String → Bool :=
  fun c => !(decide (c = ["poetry", "init", "--no-interaction"]))

/-! Helper lemmas about the embedding. -/

theorem replay_append (fs : FS) (t₁ t₂ : List Event) :
    replay fs (t₁ ++ t₂) = replay (replay fs t₁) t₂ := by
  simp [replay, List.foldl_append]

theorem mem_dirs_replay (p : Path) (tr : List Event) (fs : FS) :
    p ∈ (replay fs tr).dirs ↔
      p ∈ fs.dirs ∨ ∃ q, Event.mkdir q ∈ tr ∧ p ∈ prefixesOf q := by
  induction tr generalizing fs with
  | nil => simp [replay]
  | cons e tr ih =>
    have h := ih (fs.applyEvent e)
    simp only [replay, List.foldl_cons] at h ⊢
    rw [h]
    cases e with
    | mkdir q => simp [FS.applyEvent, List.mem_append]; aesop
    | write q c => simp [FS.applyEvent]
    | exec t c ok => simp [FS.applyEvent]
    | echo m => simp [FS.applyEvent]

theorem mem_files_replay (f : Path × String) (tr : List Event) (fs : FS) :
    f ∈ (replay fs tr).files ↔ f ∈ fs.files ∨ Event.write f.1 f.2 ∈ tr := by
  induction tr generalizing fs with
  | nil => simp [replay]
  | cons e tr ih =>
    have h := ih (fs.applyEvent e)
    simp only [replay, List.foldl_cons] at h ⊢
    rw [h]
    cases e with
    | mkdir q => simp [FS.applyEvent]
    | write q c => simp [FS.applyEvent]; aesop
    | exec t c ok => simp [FS.applyEvent]
    | echo m => simp [FS.applyEvent]

theorem pathExists_of_mem_dirs {fs : FS} {p : Path} (h : p ∈ fs.dirs) :
    fs.pathExists p = true := by
  simp only [FS.pathExists, Bool.or_eq_true, List.any_eq_true, decide_eq_true_eq]
  exact Or.inl ⟨p, h, rfl⟩

theorem dirListHas_of_mem {l : List Path} {p : Path} (h : p ∈ l) :
    dirListHas l p = true := by
  simp only [dirListHas, List.any_eq_true, decide_eq_true_eq]
  exact ⟨p, h, rfl⟩

theorem writesSafe_append (fs : FS) (t₁ t₂ : List Event) :
    writesSafe fs (t₁ ++ t₂) = (writesSafe fs t₁ && writesSafe (replay fs t₁) t₂) := by
  induction t₁ generalizing fs with
  | nil => simp [writesSafe, replay]
  | cons e t ih =>
    simp only [List.cons_append, writesSafe, List.append_eq, ih, replay, List.foldl_cons,
      Bool.and_assoc]

theorem self_mem_prefixesOf (p : Path) (h : p ≠ []) : p ∈ prefixesOf p := by
  induction p with
  | nil => exact absurd rfl h
  | cons a rest ih =>
    cases rest with
    | nil => simp [prefixesOf]
    | cons b r =>
      have hmem := ih (by simp)
      simp only [prefixesOf, List.mem_cons]
      right
      exact List.mem_map_of_mem _ hmem

theorem render_eq_ok (t : Template) (ctx : Context) :
    render t ctx = Except.ok (renderStr t ctx) := by
  induction t with
  | nil => rfl
  | cons p rest ih =>
    cases p with
    | lit s => simp [render, renderStr, ih, Except.map]
    | var k =>
      cases h : lookupCtx ctx k <;> simp [render, renderStr, ih, Except.map, h]

theorem renderStr_append (t₁ t₂ : Template) (ctx : Context) :
    renderStr (t₁ ++ t₂) ctx = renderStr t₁ ctx ++ renderStr t₂ ctx := by
  induction t₁ with
  | nil => simp [renderStr]
  | cons p rest ih => cases p <;> simp [renderStr, ih, String.append_assoc]

theorem append_ne_empty_of_left {s : String} (hs : s ≠ "") (r : String) : s ++ r ≠ "" := by
  intro h
  apply hs
  have h2 := congrArg String.length h
  simp only [String.length_append] at h2
  obtain ⟨h3, _⟩ := Nat.add_eq_zero.mp (by simpa using h2)
  exact String.ext (by simpa [String.length] using List.length_eq_zero.mp h3)

theorem execEvents_nil : execEvents [] = [] := rfl

theorem execEvents_echo (m : String) : execEvents [Event.echo m] = [] := rfl

theorem execEvents_append (t₁ t₂ : List Event) :
    execEvents (t₁ ++ t₂) = execEvents t₁ ++ execEvents t₂ := by
  simp [execEvents, List.filterMap_append]

theorem fsEvents_append (t₁ t₂ : List Event) :
    fsEvents (t₁ ++ t₂) = fsEvents t₁ ++ fsEvents t₂ := by
  simp [fsEvents, List.filter_append]

theorem execEvents_matEvents (cfg : Config) (year : Nat) :
    execEvents (matEvents cfg year) = [] := by
  simp [execEvents, matEvents, templates, subdirs]

theorem execEvents_poetryEvents (cfg : Config) (oracle : List String → Bool) :
    execEvents (poetryEvents cfg oracle).2 = [(StepTag.poetryInit, poetryCmd cfg)] := by
  cases h : oracle (poetryCmd cfg) <;> simp [poetryEvents, h, execEvents]

theorem execEvents_ciEvents (cfg : Config) :
    execEvents (ciEvents cfg) = [] := by
  unfold ciEvents
  split <;> simp [execEvents]

theorem fsEvents_ciEvents (cfg : Config) :
    fsEvents (ciEvents cfg) = [] := by
  unfold ciEvents
  split <;> simp [fsEvents]

theorem replay_ciEvents (fs : FS) (cfg : Config) :
    replay fs (ciEvents cfg) = fs := by
  unfold ciEvents
  split <;> simp [replay, FS.applyEvent]

theorem venv_exec_tags (cfg : Config) (oracle : List String → Bool) :
    ∀ x ∈ execEvents (venvEvents cfg oracle).2, x.1 = StepTag.venvSetup := by
  cases hcv : cfg.venv <;>
  cases h1 : oracle (venvCreateCmd cfg.project_name) <;>
  cases h2 : oracle (pipUpgradeCmd cfg.project_name) <;>
  cases h3 : oracle (pipInstallCmd cfg.project_name) <;>
  simp [venvEvents, hcv, h1, h2, h3, execEvents, List.forall_mem_cons]

theorem git_exec_tags (name : String) (oracle : List String → Bool) :
    ∀ x ∈ execEvents (gitEvents name oracle), x.1 = StepTag.versionControl := by
  cases h1 : oracle gitInitCmd <;>
  cases h2 : oracle gitAddCmd <;>
  cases h3 : oracle gitCommitCmd <;>
  simp [gitEvents, h1, h2, h3, execEvents, List.forall_mem_cons]

theorem mkdir_mem_matEvents {cfg : Config} {year : Nat} {q : Path}
    (h : Event.mkdir q ∈ matEvents cfg year) :
    q = [cfg.project_name] ∨ q = [cfg.project_name, "src", cfg.project_name] ∨
    q = [cfg.project_name, "tests"] ∨ q = [cfg.project_name, ".github", "workflows"] ∨
    q = [cfg.project_name, ".github"] := by
  simp [matEvents, templates, subdirs] at h
  tauto

theorem mkdir_not_mem_poetryEvents (cfg : Config) (oracle : List String → Bool) (q : Path) :
    Event.mkdir q ∉ (poetryEvents cfg oracle).2 := by
  cases h : oracle (poetryCmd cfg) <;> simp [poetryEvents, h]

theorem mkdir_not_mem_ciEvents (cfg : Config) (q : Path) :
    Event.mkdir q ∉ ciEvents cfg := by
  unfold ciEvents
  split <;> simp

theorem mkdir_mem_venvEvents {cfg : Config} {oracle : List String → Bool} {q : Path}
    (h : Event.mkdir q ∈ (venvEvents cfg oracle).2) :
    q = [cfg.project_name, "venv"] := by
  revert h
  cases hcv : cfg.venv <;>
  cases h1 : oracle (venvCreateCmd cfg.project_name) <;>
  cases h2 : oracle (pipUpgradeCmd cfg.project_name) <;>
  cases h3 : oracle (pipInstallCmd cfg.project_name) <;>
  simp [venvEvents, hcv, h1, h2, h3]

theorem mkdir_mem_gitEvents {name : String} {oracle : List String → Bool} {q : Path}
    (h : Event.mkdir q ∈ gitEvents name oracle) :
    q = [name, ".git"] := by
  revert h
  cases h1 : oracle gitInitCmd <;>
  cases h2 : oracle gitAddCmd <;>
  cases h3 : oracle gitCommitCmd <;>
  simp [gitEvents, h1, h2, h3]

theorem write_mem_matEvents (cfg : Config) (year : Nat) :
    ∀ t ∈ templates cfg.project_name,
      Event.write ([cfg.project_name] ++ t.2) (render_template t.1 (buildContext cfg year))
        ∈ matEvents cfg year := by
  intro t ht
  simp only [templates, List.mem_cons, List.not_mem_nil, or_false] at ht
  rcases ht with h|h|h|h|h|h|h|h|h <;> subst h <;> simp [matEvents, templates, subdirs]

theorem mkdir_root_mem_matEvents (cfg : Config) (year : Nat) :
    Event.mkdir [cfg.project_name] ∈ matEvents cfg year := by
  simp [matEvents]

theorem mkdir_subdirs_mem_matEvents (cfg : Config) (year : Nat) :
    ∀ d ∈ subdirs cfg.project_name, Event.mkdir d ∈ matEvents cfg year := by
  intro d hd
  simp only [subdirs, List.mem_cons, List.not_mem_nil, or_false] at hd
  rcases hd with h|h|h <;> subst h <;> simp [matEvents, subdirs]

theorem mem_runTrace_of_mem_mat {cfg : Config} {oracle : List String → Bool} {year : Nat}
    {e : Event} (h : e ∈ matEvents cfg year) : e ∈ (runTrace cfg oracle year).2 := by
  cases hp : (poetryEvents cfg oracle).1 <;> cases hv : (venvEvents cfg oracle).1 <;>
    simp [runTrace, hp, hv, h]

theorem mem_runTrace_of_mem_poetry {cfg : Config} {oracle : List String → Bool} {year : Nat}
    {e : Event} (h : e ∈ (poetryEvents cfg oracle).2) : e ∈ (runTrace cfg oracle year).2 := by
  cases hp : (poetryEvents cfg oracle).1 <;> cases hv : (venvEvents cfg oracle).1 <;>
    simp [runTrace, hp, hv, h]

theorem mem_runTrace_of_mem_venv {cfg : Config} {oracle : List String → Bool} {year : Nat}
    {e : Event} (hp : (poetryEvents cfg oracle).1 = true)
    (h : e ∈ (venvEvents cfg oracle).2) : e ∈ (runTrace cfg oracle year).2 := by
  cases hv : (venvEvents cfg oracle).1 <;> simp [runTrace, hp, hv, h]

theorem mem_runTrace_elim {cfg : Config} {oracle : List String → Bool} {year : Nat} {e : Event}
    (h : e ∈ (runTrace cfg oracle year).2) :
    e ∈ matEvents cfg year ∨ e ∈ (poetryEvents cfg oracle).2 ∨ e ∈ ciEvents cfg ∨
    e ∈ (venvEvents cfg oracle).2 ∨ e ∈ gitEvents cfg.project_name oracle ∨
    (∃ m, e = Event.echo m) := by
  cases hp : (poetryEvents cfg oracle).1 <;> cases hv : (venvEvents cfg oracle).1 <;>
  cases hg : cfg.git <;> simp [runTrace, hp, hv, hg] at h <;> aesop

theorem writesSafe_matEvents (cfg : Config) (year : Nat) (fs : FS) :
    writesSafe fs (matEvents cfg year) = true := by
  simp +decide [matEvents, templates, subdirs, writesSafe, dirListHas, FS.applyEvent, prefixesOf]

theorem writesSafe_poetryEvents (cfg : Config) (oracle : List String → Bool) (fs : FS)
    (h : [cfg.project_name] ∈ fs.dirs) :
    writesSafe fs (poetryEvents cfg oracle).2 = true := by
  cases hp : oracle (poetryCmd cfg) <;>
    simp [poetryEvents, hp, writesSafe, FS.applyEvent, prefixesOf, dirListHas_of_mem h]

theorem writesSafe_ciEvents (cfg : Config) (fs : FS) :
    writesSafe fs (ciEvents cfg) = true := by
  unfold ciEvents
  split <;> simp [writesSafe, FS.applyEvent]

theorem writesSafe_venvEvents (cfg : Config) (oracle : List String → Bool) (fs : FS) :
    writesSafe fs (venvEvents cfg oracle).2 = true := by
  cases hcv : cfg.venv <;>
  cases h1 : oracle (venvCreateCmd cfg.project_name) <;>
  cases h2 : oracle (pipUpgradeCmd cfg.project_name) <;>
  cases h3 : oracle (pipInstallCmd cfg.project_name) <;>
  simp [venvEvents, hcv, h1, h2, h3, writesSafe, FS.applyEvent]

theorem writesSafe_gitEvents (name : String) (oracle : List String → Bool) (fs : FS) :
    writesSafe fs (gitEvents name oracle) = true := by
  cases h1 : oracle gitInitCmd <;>
  cases h2 : oracle gitAddCmd <;>
  cases h3 : oracle gitCommitCmd <;>
  simp [gitEvents, h1, h2, h3, writesSafe, FS.applyEvent]

theorem writesSafe_echo (fs : FS) (m : String) :
    writesSafe fs [Event.echo m] = true := by
  simp [writesSafe, FS.applyEvent]

theorem root_mem_replay_matEvents (cfg : Config) (year : Nat) (fs : FS) :
    [cfg.project_name] ∈ (replay fs (matEvents cfg year)).dirs :=
  (mem_dirs_replay _ _ _).mpr
    (Or.inr ⟨[cfg.project_name], mkdir_root_mem_matEvents cfg year, by simp [prefixesOf]⟩)

theorem run_abort_of_exists {cfg : Config} {fs : FS} {oracle : List String → Bool} {year : Nat}
    (h : fs.pathExists [cfg.project_name] = true) :
    run cfg fs oracle year =
      ⟨1, fs,
       [Event.echo ("Error: Directory " ++ pathStr [cfg.project_name] ++ " already exists.")]⟩ := by
  simp [run, h]

theorem root_mem_run_dirs {cfg : Config} {fs : FS} {oracle : List String → Bool} {year : Nat}
    (h : fs.pathExists [cfg.project_name] = false) :
    [cfg.project_name] ∈ (run cfg fs oracle year).fs.dirs := by
  simp only [run, h, Bool.false_eq_true, if_false]
  exact (mem_dirs_replay _ _ _).mpr
    (Or.inr ⟨[cfg.project_name],
      mem_runTrace_of_mem_mat (mkdir_root_mem_matEvents cfg year), by simp [prefixesOf]⟩)

/-! The claims. -/

/-- C1: a run against a destination that already exists fails with exit code 1,
leaves the filesystem untouched, and performs no filesystem action beyond the
existence pre-check; consequently a second run against the destination of a
first run that passed the pre-check always fails this way. -/
theorem run_fails_when_destination_exists
    (cfg cfg' : Config) (fs : FS) (oracle oracle' : List String → Bool) (year year' : Nat)
    (hname : cfg'.project_name = cfg.project_name) :
    (fs.pathExists [cfg.project_name] = true →
      (run cfg fs oracle year).exit = 1 ∧ (run cfg fs oracle year).fs = fs ∧
      fsEvents (run cfg fs oracle year).trace = []) ∧
    (fs.pathExists [cfg.project_name] = false →
      (run cfg' (run cfg fs oracle year).fs oracle' year').exit = 1 ∧
      (run cfg' (run cfg fs oracle year).fs oracle' year').fs = (run cfg fs oracle year).fs ∧
      fsEvents (run cfg' (run cfg fs oracle year).fs oracle' year').trace = []) := by
  constructor
  · intro h
    rw [run_abort_of_exists h]
    simp [fsEvents]
  · intro h
    have hmem : [cfg'.project_name] ∈ (run cfg fs oracle year).fs.dirs := by
      rw [hname]
      exact root_mem_run_dirs h
    have hex : (run cfg fs oracle year).fs.pathExists [cfg'.project_name] = true :=
      pathExists_of_mem_dirs hmem
    rw [run_abort_of_exists hex]
    simp [fsEvents]

/-- C1 witness: a run against an already-existing demo directory aborts
untouched, and a second run after a completed first run aborts untouched. -/
theorem run_fails_when_destination_exists_witness :
    ((run demoCfg fsDemo oracleAll 2024).exit = 1 ∧
      (run demoCfg fsDemo oracleAll 2024).fs = fsDemo ∧
      fsEvents (run demoCfg fsDemo oracleAll 2024).trace = []) ∧
    ((run demoCfg (run demoCfg fs0 oracleAll 2024).fs oracleAll 2025).exit = 1 ∧
      (run demoCfg (run demoCfg fs0 oracleAll 2024).fs oracleAll 2025).fs =
        (run demoCfg fs0 oracleAll 2024).fs ∧
      fsEvents (run demoCfg (run demoCfg fs0 oracleAll 2024).fs oracleAll 2025).trace = []) :=
  ⟨(run_fails_when_destination_exists demoCfg demoCfg fsDemo oracleAll oracleAll 2024 2024
      rfl).1 (by decide),
   (run_fails_when_destination_exists demoCfg demoCfg fs0 oracleAll oracleAll 2024 2025
      rfl).2 (by decide)⟩

/-- C2 counterexample: rendering the README template against the empty context,
in which every referenced key is undefined, succeeds (no rendering error) and
produces output with the variables silently blank, refuting the claim that
such a render fails. -/
theorem render_missing_key_silently_blank_cex :
    render (templateOf "README.md.j2") [] = Except.ok "# \n\n\nAuthor: \n" := by
  rfl

/-- C2 amended: rendering a template that references a context key not present
in the context succeeds, interpolating the empty string for the undefined
variable (Jinja2 default Undefined class; the cli.py Environment does not set
undefined=StrictUndefined), instead of failing with a rendering error. -/
theorem render_missing_key_blank
    (ctx : Context) (k : String) (pre post : Template) (h : lookupCtx ctx k = none) :
    render (pre ++ TPart.var k :: post) ctx =
      Except.ok (renderStr pre ctx ++ renderStr post ctx) := by
  rw [render_eq_ok, renderStr_append]
  simp [renderStr, h]

/-- C2 amended witness: a concrete template with a missing key renders with
the variable blank. -/
theorem render_missing_key_blank_witness :
    lookupCtx [] "missing" = none ∧
    render ([TPart.lit "hello "] ++ TPart.var "missing" :: []) [] =
      Except.ok (renderStr [TPart.lit "hello "] [] ++ renderStr [] []) :=
  ⟨rfl, render_missing_key_blank [] "missing" [TPart.lit "hello "] [] rfl⟩

/-- C4: when `poetry init` exits non-zero the whole run aborts with exit code 1
and its only subprocess invocation is the poetry one: neither the virtual
environment step nor the version-control step is ever invoked. -/
theorem poetry_failure_fatal
    (cfg : Config) (fs : FS) (oracle : List String → Bool) (year : Nat)
    (h0 : fs.pathExists [cfg.project_name] = false)
    (h1 : oracle (poetryCmd cfg) = false) :
    (run cfg fs oracle year).exit = 1 ∧
    execEvents (run cfg fs oracle year).trace = [(StepTag.poetryInit, poetryCmd cfg)] := by
  have hp : (poetryEvents cfg oracle).1 = false := by simp [poetryEvents, h1]
  simp [run, h0, runTrace, hp, execEvents_append, execEvents_matEvents, execEvents_poetryEvents]

/-- C4 witness: with an oracle failing the non-interactive poetry init, the
demo run aborts after the poetry invocation alone. -/
theorem poetry_failure_fatal_witness :
    (run demoCfg fs0 oracleNoPoetry 2024).exit = 1 ∧
    execEvents (run demoCfg fs0 oracleNoPoetry 2024).trace =
      [(StepTag.poetryInit, poetryCmd demoCfg)] :=
  poetry_failure_fatal demoCfg fs0 oracleNoPoetry 2024 (by decide) (by decide)

/-- C9: on every run that passes the existence pre-check, `poetry init` is
invoked unconditionally regardless of all boolean flags; the interactive flag
only controls the presence of the no-interaction argument; and a failing
poetry exit status forces a non-zero run exit. -/
theorem poetry_always_invoked
    (cfg : Config) (fs : FS) (oracle : List String → Bool) (year : Nat)
    (h0 : fs.pathExists [cfg.project_name] = false) :
    (StepTag.poetryInit, poetryCmd cfg) ∈ execEvents (run cfg fs oracle year).trace ∧
    poetryCmd cfg = ["poetry", "init"] ++ (if cfg.interactive then [] else ["--no-interaction"]) ∧
    (oracle (poetryCmd cfg) = false → (run cfg fs oracle year).exit = 1) := by
  refine ⟨?_, rfl, ?_⟩
  · have hm : Event.exec StepTag.poetryInit (poetryCmd cfg) (oracle (poetryCmd cfg))
        ∈ (poetryEvents cfg oracle).2 := by
      cases h : oracle (poetryCmd cfg) <;> simp [poetryEvents, h]
    have hmem := @mem_runTrace_of_mem_poetry cfg oracle year _ hm
    simp only [run, h0, Bool.false_eq_true, if_false, execEvents, List.mem_filterMap]
    exact ⟨_, hmem, rfl⟩
  · intro h1
    have hp : (poetryEvents cfg oracle).1 = false := by simp [poetryEvents, h1]
    simp [run, h0, runTrace, hp]

/-- C3: with the git flag set, when materialization and the earlier post-init
steps succeed but some version-control command exits non-zero, the run still
reports success with exit code 0 and every templated file still exists. -/
theorem git_failure_nonfatal
    (cfg : Config) (fs : FS) (oracle : List String → Bool) (year : Nat)
    (h0 : fs.pathExists [cfg.project_name] = false)
    (hpo : oracle (poetryCmd cfg) = true)
    (hv : cfg.venv = true →
      oracle (venvCreateCmd cfg.project_name) = true ∧
      oracle (pipUpgradeCmd cfg.project_name) = true ∧
      oracle (pipInstallCmd cfg.project_name) = true)
    (_hg : cfg.git = true)
    (_hfail : oracle gitInitCmd = false ∨ oracle gitAddCmd = false ∨
      oracle gitCommitCmd = false) :
    (run cfg fs oracle year).exit = 0 ∧
    ∀ t ∈ templates cfg.project_name,
      ([cfg.project_name] ++ t.2, render_template t.1 (buildContext cfg year))
        ∈ (run cfg fs oracle year).fs.files := by
  have hp : (poetryEvents cfg oracle).1 = true := by simp [poetryEvents, hpo]
  have hvv : (venvEvents cfg oracle).1 = true := by
    cases hcv : cfg.venv
    · simp [venvEvents, hcv]
    · obtain ⟨h1, h2, h3⟩ := hv hcv
      simp [venvEvents, hcv, h1, h2, h3]
  constructor
  · simp [run, h0, runTrace, hp, hvv]
  · intro t ht
    simp only [run, h0, Bool.false_eq_true, if_false]
    exact (mem_files_replay _ _ _).mpr
      (Or.inr (mem_runTrace_of_mem_mat (write_mem_matEvents cfg year t ht)))

/-- C3 witness: the demo run with a failing `git init` still exits 0 with all
templated files present. -/
theorem git_failure_nonfatal_witness :
    (run demoCfg fs0 oracleNoGit 2024).exit = 0 ∧
    ∀ t ∈ templates demoCfg.project_name,
      ([demoCfg.project_name] ++ t.2, render_template t.1 (buildContext demoCfg 2024))
        ∈ (run demoCfg fs0 oracleNoGit 2024).fs.files :=
  git_failure_nonfatal demoCfg fs0 oracleNoGit 2024 (by decide) (by decide) (by decide)
    (by decide) (Or.inl (by decide))

theorem render_template_nonempty (name : String) (ctx : Context) :
    ∀ t ∈ templates name, render_template t.1 ctx ≠ "" := by
  intro t ht
  simp only [templates, List.mem_cons, List.not_mem_nil, or_false] at ht
  rcases ht with h|h|h|h|h|h|h|h|h <;> subst h <;>
    exact append_ne_empty_of_left (by decide) _

/-- C5: after a run that exits successfully, every templated output file
exists under the root with nonempty content, the pyproject-equivalent
manifest exists nonempty, and the project root together with all its fixed
subdirectories exists. -/
theorem successful_run_outputs_exist
    (cfg : Config) (fs : FS) (oracle : List String → Bool) (year : Nat)
    (hex : (run cfg fs oracle year).exit = 0) :
    (∀ t ∈ templates cfg.project_name,
      ([cfg.project_name] ++ t.2, render_template t.1 (buildContext cfg year))
        ∈ (run cfg fs oracle year).fs.files ∧
      render_template t.1 (buildContext cfg year) ≠ "") ∧
    ([cfg.project_name, "pyproject.toml"], pyprojectContent cfg)
      ∈ (run cfg fs oracle year).fs.files ∧
    pyprojectContent cfg ≠ "" ∧
    [cfg.project_name] ∈ (run cfg fs oracle year).fs.dirs ∧
    (∀ d ∈ subdirs cfg.project_name, d ∈ (run cfg fs oracle year).fs.dirs) ∧
    [cfg.project_name, ".github"] ∈ (run cfg fs oracle year).fs.dirs := by
  have h0 : fs.pathExists [cfg.project_name] = false := by
    by_contra h
    rw [Bool.not_eq_false] at h
    rw [run_abort_of_exists h] at hex
    simp at hex
  have hp : (poetryEvents cfg oracle).1 = true := by
    by_contra h
    rw [Bool.not_eq_true] at h
    simp [run, h0, runTrace, h] at hex
  have hpo : oracle (poetryCmd cfg) = true := by simpa [poetryEvents] using hp
  refine ⟨?_, ?_, ?_, ?_, ?_, ?_⟩
  · intro t ht
    refine ⟨?_, render_template_nonempty cfg.project_name (buildContext cfg year) t ht⟩
    simp only [run, h0, Bool.false_eq_true, if_false]
    exact (mem_files_replay _ _ _).mpr
      (Or.inr (mem_runTrace_of_mem_mat (write_mem_matEvents cfg year t ht)))
  · have hw : Event.write [cfg.project_name, "pyproject.toml"] (pyprojectContent cfg)
        ∈ (poetryEvents cfg oracle).2 := by
      simp [poetryEvents, hpo]
    simp only [run, h0, Bool.false_eq_true, if_false]
    exact (mem_files_replay _ _ _).mpr (Or.inr (mem_runTrace_of_mem_poetry hw))
  · exact append_ne_empty_of_left (append_ne_empty_of_left (by decide) _) _
  · exact root_mem_run_dirs h0
  · intro d hd
    have hpre : d ∈ prefixesOf d := by
      simp only [subdirs, List.mem_cons, List.not_mem_nil, or_false] at hd
      rcases hd with h|h|h <;> subst h <;> simp [prefixesOf]
    simp only [run, h0, Bool.false_eq_true, if_false]
    exact (mem_dirs_replay _ _ _).mpr
      (Or.inr ⟨d, mem_runTrace_of_mem_mat (mkdir_subdirs_mem_matEvents cfg year d hd), hpre⟩)
  · simp only [run, h0, Bool.false_eq_true, if_false]
    refine (mem_dirs_replay _ _ _).mpr (Or.inr ⟨[cfg.project_name, ".github", "workflows"],
      mem_runTrace_of_mem_mat
        (mkdir_subdirs_mem_matEvents cfg year [cfg.project_name, ".github", "workflows"]
          (by simp [subdirs])), by simp [prefixesOf]⟩)

/-- C5 witness: the all-flags demo run succeeds and all outputs exist. -/
theorem successful_run_outputs_exist_witness :
    (∀ t ∈ templates demoCfg.project_name,
      ([demoCfg.project_name] ++ t.2, render_template t.1 (buildContext demoCfg 2024))
        ∈ (run demoCfg fs0 oracleAll 2024).fs.files ∧
      render_template t.1 (buildContext demoCfg 2024) ≠ "") ∧
    ([demoCfg.project_name, "pyproject.toml"], pyprojectContent demoCfg)
      ∈ (run demoCfg fs0 oracleAll 2024).fs.files ∧
    pyprojectContent demoCfg ≠ "" ∧
    [demoCfg.project_name] ∈ (run demoCfg fs0 oracleAll 2024).fs.dirs ∧
    (∀ d ∈ subdirs demoCfg.project_name, d ∈ (run demoCfg fs0 oracleAll 2024).fs.dirs) ∧
    [demoCfg.project_name, ".github"] ∈ (run demoCfg fs0 oracleAll 2024).fs.dirs :=
  successful_run_outputs_exist demoCfg fs0 oracleAll 2024 (by decide)

theorem exec_not_mem_matEvents (cfg : Config) (year : Nat) (t : StepTag) (c : List String)
    (ok : Bool) : Event.exec t c ok ∉ matEvents cfg year := by
  simp [matEvents, templates, subdirs]

theorem exec_mem_poetryEvents {cfg : Config} {oracle : List String → Bool} {t : StepTag}
    {c : List String} {ok : Bool} (h : Event.exec t c ok ∈ (poetryEvents cfg oracle).2) :
    t = StepTag.poetryInit := by
  revert h
  cases hp : oracle (poetryCmd cfg) <;> simp [poetryEvents, hp] <;> aesop

theorem exec_not_mem_ciEvents (cfg : Config) (t : StepTag) (c : List String) (ok : Bool) :
    Event.exec t c ok ∉ ciEvents cfg := by
  unfold ciEvents
  split <;> simp

theorem exec_mem_gitEvents {name : String} {oracle : List String → Bool} {t : StepTag}
    {c : List String} {ok : Bool} (h : Event.exec t c ok ∈ gitEvents name oracle) :
    t = StepTag.versionControl := by
  revert h
  cases h1 : oracle gitInitCmd <;> cases h2 : oracle gitAddCmd <;>
    cases h3 : oracle gitCommitCmd <;> simp [gitEvents, h1, h2, h3] <;> aesop

theorem exec_mem_venvEvents {cfg : Config} {oracle : List String → Bool} {t : StepTag}
    {c : List String} {ok : Bool} (h : Event.exec t c ok ∈ (venvEvents cfg oracle).2) :
    t = StepTag.venvSetup := by
  revert h
  cases hcv : cfg.venv <;> cases h1 : oracle (venvCreateCmd cfg.project_name) <;>
    cases h2 : oracle (pipUpgradeCmd cfg.project_name) <;>
    cases h3 : oracle (pipInstallCmd cfg.project_name) <;>
    simp [venvEvents, hcv, h1, h2, h3] <;> aesop

theorem venvEvents_of_flag_false {cfg : Config} (oracle : List String → Bool)
    (h : cfg.venv = false) : venvEvents cfg oracle = (true, []) := by
  simp [venvEvents, h]

/-- C6: when the venv flag is false the run never invokes the venv tool (so no
virtual environment is created anywhere) and never creates the venv directory,
which then does not exist afterwards unless it existed before; when the venv
flag is true and the run exits successfully, the venv directory exists at the
fixed subpath root/venv. -/
theorem venv_flag_controls_venv_dir
    (cfg : Config) (fs : FS) (oracle : List String → Bool) (year : Nat) :
    (cfg.venv = false →
      (∀ c ok, Event.exec StepTag.venvSetup c ok ∉ (run cfg fs oracle year).trace) ∧
      Event.mkdir [cfg.project_name, "venv"] ∉ (run cfg fs oracle year).trace ∧
      ([cfg.project_name, "venv"] ∉ fs.dirs →
        [cfg.project_name, "venv"] ∉ (run cfg fs oracle year).fs.dirs)) ∧
    (cfg.venv = true → (run cfg fs oracle year).exit = 0 →
      [cfg.project_name, "venv"] ∈ (run cfg fs oracle year).fs.dirs) := by
  constructor
  · intro hv
    cases h0 : fs.pathExists [cfg.project_name] with
    | true =>
      rw [run_abort_of_exists h0]
      simp [fsEvents]
    | false =>
      simp only [run, h0, Bool.false_eq_true, if_false]
      refine ⟨?_, ?_, ?_⟩
      · intro c ok hmem
        rcases mem_runTrace_elim hmem with h|h|h|h|h|h
        · exact exec_not_mem_matEvents cfg year _ c ok h
        · exact absurd (exec_mem_poetryEvents h) (by decide)
        · exact exec_not_mem_ciEvents cfg _ c ok h
        · rw [venvEvents_of_flag_false oracle hv] at h
          simp at h
        · exact absurd (exec_mem_gitEvents h) (by decide)
        · obtain ⟨m, hm⟩ := h
          simp at hm
      · intro hmem
        rcases mem_runTrace_elim hmem with h|h|h|h|h|h
        · rcases mkdir_mem_matEvents h with h|h|h|h|h <;> simp +decide at h
        · exact mkdir_not_mem_poetryEvents cfg oracle _ h
        · exact mkdir_not_mem_ciEvents cfg _ h
        · rw [venvEvents_of_flag_false oracle hv] at h
          simp at h
        · have := mkdir_mem_gitEvents h
          simp +decide at this
        · obtain ⟨m, hm⟩ := h
          simp at hm
      · intro hfs hmem
        rcases (mem_dirs_replay _ _ _).mp hmem with h | ⟨q, hq, hpre⟩
        · exact hfs h
        · rcases mem_runTrace_elim hq with h|h|h|h|h|h
          · rcases mkdir_mem_matEvents h with h|h|h|h|h <;> subst h <;>
              simp +decide [prefixesOf] at hpre
          · exact mkdir_not_mem_poetryEvents cfg oracle _ h
          · exact mkdir_not_mem_ciEvents cfg _ h
          · rw [venvEvents_of_flag_false oracle hv] at h
            simp at h
          · rw [mkdir_mem_gitEvents h] at hpre
            simp +decide [prefixesOf] at hpre
          · obtain ⟨m, hm⟩ := h
            simp at hm
  · intro hv hex
    have h0 : fs.pathExists [cfg.project_name] = false := by
      by_contra h
      rw [Bool.not_eq_false] at h
      rw [run_abort_of_exists h] at hex
      simp at hex
    have hp : (poetryEvents cfg oracle).1 = true := by
      by_contra h
      rw [Bool.not_eq_true] at h
      simp [run, h0, runTrace, h] at hex
    have hvv : (venvEvents cfg oracle).1 = true := by
      by_contra h
      rw [Bool.not_eq_true] at h
      simp [run, h0, runTrace, hp, h] at hex
    have h1 : oracle (venvCreateCmd cfg.project_name) = true := by
      by_contra h
      rw [Bool.not_eq_true] at h
      simp [venvEvents, hv, h] at hvv
    have hm : Event.mkdir [cfg.project_name, "venv"] ∈ (venvEvents cfg oracle).2 := by
      cases h2 : oracle (pipUpgradeCmd cfg.project_name) <;>
        cases h3 : oracle (pipInstallCmd cfg.project_name) <;>
        simp [venvEvents, hv, h1, h2, h3]
    simp only [run, h0, Bool.false_eq_true, if_false]
    exact (mem_dirs_replay _ _ _).mpr
      (Or.inr ⟨[cfg.project_name, "venv"], mem_runTrace_of_mem_venv hp hm,
        by simp [prefixesOf]⟩)

/-- C6 witness: without the flag no venv directory appears; with the flag and
a successful run it does. -/
theorem venv_flag_controls_venv_dir_witness :
    Event.mkdir [plainCfg.project_name, "venv"] ∉ (run plainCfg fs0 oracleAll 2024).trace ∧
    [plainCfg.project_name, "venv"] ∉ (run plainCfg fs0 oracleAll 2024).fs.dirs ∧
    [demoCfg.project_name, "venv"] ∈ (run demoCfg fs0 oracleAll 2024).fs.dirs :=
  ⟨((venv_flag_controls_venv_dir plainCfg fs0 oracleAll 2024).1 rfl).2.1,
   ((venv_flag_controls_venv_dir plainCfg fs0 oracleAll 2024).1 rfl).2.2 (by decide),
   (venv_flag_controls_venv_dir demoCfg fs0 oracleAll 2024).2 rfl (by decide)⟩

/-- C7: along every run trace, at the moment each file is written every
directory on the written file's path already exists (the required
subdirectories are created before rendering, and each write is preceded by a
defensive parent-directory creation). -/
theorem writes_have_parents
    (cfg : Config) (fs : FS) (oracle : List String → Bool) (year : Nat) :
    writesSafe fs (run cfg fs oracle year).trace = true := by
  cases h0 : fs.pathExists [cfg.project_name] with
  | true =>
    rw [run_abort_of_exists h0]
    simp [writesSafe, FS.applyEvent]
  | false =>
    simp only [run, h0, Bool.false_eq_true, if_false]
    have h1 : writesSafe fs (matEvents cfg year) = true := writesSafe_matEvents cfg year fs
    have h2 : writesSafe (replay fs (matEvents cfg year)) (poetryEvents cfg oracle).2 = true :=
      writesSafe_poetryEvents cfg oracle _ (root_mem_replay_matEvents cfg year fs)
    cases hp : (poetryEvents cfg oracle).1 with
    | false => simp [runTrace, hp, writesSafe_append, h1, h2]
    | true =>
      cases hv : (venvEvents cfg oracle).1 with
      | false =>
        simp [runTrace, hp, hv, writesSafe_append, h1, h2, writesSafe_ciEvents,
          writesSafe_venvEvents]
      | true =>
        cases hg : cfg.git <;>
          simp [runTrace, hp, hv, hg, writesSafe_append, h1, h2, writesSafe_ciEvents,
            writesSafe_venvEvents, writesSafe_gitEvents, writesSafe_echo]

theorem pairwise_rank_of_const {l : List (StepTag × List String)} {t : StepTag}
    (h : ∀ x ∈ l, x.1 = t) :
    l.Pairwise (fun a b => a.1.rank ≤ b.1.rank) := by
  induction l with
  | nil => simp
  | cons a l ih =>
    refine List.pairwise_cons.mpr ⟨?_, ih (fun x hx => h x (by simp [hx]))⟩
    intro b hb
    rw [h a (by simp), h b (by simp [hb])]

theorem pairwise_rank_helper (c : List String) (l₁ l₂ : List (StepTag × List String))
    (h₁ : ∀ x ∈ l₁, x.1 = StepTag.venvSetup)
    (h₂ : ∀ x ∈ l₂, x.1 = StepTag.versionControl) :
    List.Pairwise (fun a b => a.1.rank ≤ b.1.rank)
      ((StepTag.poetryInit, c) :: (l₁ ++ l₂)) := by
  refine List.pairwise_cons.mpr ⟨fun b _ => Nat.zero_le _, ?_⟩
  refine List.pairwise_append.mpr
    ⟨pairwise_rank_of_const h₁, pairwise_rank_of_const h₂, ?_⟩
  intro a ha b hb
  rw [h₁ a ha, h₂ b hb]
  decide

theorem execEvents_runTrace (cfg : Config) (oracle : List String → Bool) (year : Nat) :
    execEvents (runTrace cfg oracle year).2 =
      (StepTag.poetryInit, poetryCmd cfg) ::
      (if (poetryEvents cfg oracle).1 then
        execEvents (venvEvents cfg oracle).2 ++
        (if (venvEvents cfg oracle).1 then
          (if cfg.git then execEvents (gitEvents cfg.project_name oracle) else [])
         else [])
       else []) := by
  cases hp : (poetryEvents cfg oracle).1 <;> cases hv : (venvEvents cfg oracle).1 <;>
    cases hg : cfg.git <;>
    simp [runTrace, hp, hv, hg, execEvents_append, execEvents_matEvents,
      execEvents_poetryEvents, execEvents_ciEvents, execEvents_nil, execEvents_echo]

/-- C8: the post-init subprocess invocations of every run occur in the fixed
step order: the package-manager init first, then (after the invocation-free
CI/CD no-op, rank 1) the virtual-environment step, then the version-control
step; no invocation ever occurs out of this order. -/
theorem postinit_steps_in_fixed_order
    (cfg : Config) (fs : FS) (oracle : List String → Bool) (year : Nat) :
    List.Pairwise (fun a b => a.1.rank ≤ b.1.rank)
      (execEvents (run cfg fs oracle year).trace) := by
  cases h0 : fs.pathExists [cfg.project_name] with
  | true =>
    rw [run_abort_of_exists h0]
    simp [execEvents]
  | false =>
    simp only [run, h0, Bool.false_eq_true, if_false]
    rw [execEvents_runTrace]
    refine List.pairwise_cons.mpr ⟨fun b _ => Nat.zero_le _, ?_⟩
    split
    · refine List.pairwise_append.mpr
        ⟨pairwise_rank_of_const (venv_exec_tags cfg oracle), ?_, ?_⟩
      · split
        · split
          · exact pairwise_rank_of_const (git_exec_tags _ oracle)
          · simp
        · simp
      · intro a ha b hb
        rw [venv_exec_tags cfg oracle a ha]
        split at hb
        · split at hb
          · rw [git_exec_tags _ oracle b hb]
            decide
          · simp at hb
        · simp at hb
    · simp

/-- C10: the ci flag changes no filesystem outcome: two runs differing only in
the ci flag have the same exit code, the same final filesystem, and identical
filesystem event sequences; moreover the workflow and dependabot files are
written on every run that passes the pre-check, whatever the ci flag. -/
theorem ci_flag_frame
    (cfg : Config) (fs : FS) (oracle : List String → Bool) (year : Nat) (b₁ b₂ : Bool) :
    ((run { cfg with ci := b₁ } fs oracle year).exit =
        (run { cfg with ci := b₂ } fs oracle year).exit ∧
      (run { cfg with ci := b₁ } fs oracle year).fs =
        (run { cfg with ci := b₂ } fs oracle year).fs ∧
      fsEvents (run { cfg with ci := b₁ } fs oracle year).trace =
        fsEvents (run { cfg with ci := b₂ } fs oracle year).trace) ∧
    (fs.pathExists [cfg.project_name] = false →
      Event.write [cfg.project_name, ".github", "workflows", "ci.yml"]
          (render_template "ci.yml.j2" (buildContext cfg year))
        ∈ (run { cfg with ci := b₁ } fs oracle year).trace ∧
      Event.write [cfg.project_name, ".github", "dependabot.yml"]
          (render_template "dependabot.yml.j2" (buildContext cfg year))
        ∈ (run { cfg with ci := b₁ } fs oracle year).trace) := by
  have hmat : ∀ b : Bool, matEvents { cfg with ci := b } year = matEvents cfg year :=
    fun _ => rfl
  have hpe : ∀ b : Bool, poetryEvents { cfg with ci := b } oracle = poetryEvents cfg oracle :=
    fun _ => rfl
  have hve : ∀ b : Bool, venvEvents { cfg with ci := b } oracle = venvEvents cfg oracle :=
    fun _ => rfl
  have hnm : ∀ b : Bool, ({ cfg with ci := b } : Config).project_name = cfg.project_name :=
    fun _ => rfl
  have hgit : ∀ b : Bool, ({ cfg with ci := b } : Config).git = cfg.git := fun _ => rfl
  constructor
  · cases h0 : fs.pathExists [cfg.project_name] with
    | true => simp [run, hnm, h0]
    | false =>
      simp only [run, hnm, h0, Bool.false_eq_true, if_false, runTrace, hmat, hpe, hve, hgit]
      cases hp : (poetryEvents cfg oracle).1 <;> cases hv : (venvEvents cfg oracle).1 <;>
        simp [hp, hv, replay_append, replay_ciEvents, fsEvents_append, fsEvents_ciEvents]
  · intro h0
    have hci : Event.write [cfg.project_name, ".github", "workflows", "ci.yml"]
        (render_template "ci.yml.j2" (buildContext cfg year))
        ∈ matEvents { cfg with ci := b₁ } year := by
      rw [hmat]
      exact write_mem_matEvents cfg year ("ci.yml.j2", [".github", "workflows", "ci.yml"])
        (by simp [templates])
    have hdb : Event.write [cfg.project_name, ".github", "dependabot.yml"]
        (render_template "dependabot.yml.j2" (buildContext cfg year))
        ∈ matEvents { cfg with ci := b₁ } year := by
      rw [hmat]
      exact write_mem_matEvents cfg year ("dependabot.yml.j2", [".github", "dependabot.yml"])
        (by simp [templates])
    constructor
    · simp only [run, hnm, h0, Bool.false_eq_true, if_false]
      exact mem_runTrace_of_mem_mat hci
    · simp only [run, hnm, h0, Bool.false_eq_true, if_false]
      exact mem_runTrace_of_mem_mat hdb

/-- C10 witness: the ci.yml and dependabot.yml writes occur on the concrete
run with the ci flag set. -/
theorem ci_flag_frame_witness :
    Event.write ["demo", ".github", "workflows", "ci.yml"]
        (render_template "ci.yml.j2" (buildContext plainCfg 2024))
      ∈ (run { plainCfg with ci := true } fs0 oracleAll 2024).trace ∧
    Event.write ["demo", ".github", "dependabot.yml"]
        (render_template "dependabot.yml.j2" (buildContext plainCfg 2024))
      ∈ (run { plainCfg with ci := true } fs0 oracleAll 2024).trace :=
  (ci_flag_frame plainCfg fs0 oracleAll 2024 true false).2 (by decide)

/-- C9 witness at the demo configuration. -/
theorem poetry_always_invoked_witness :
    (StepTag.poetryInit, poetryCmd demoCfg) ∈ execEvents (run demoCfg fs0 oracleAll 2024).trace ∧
    poetryCmd demoCfg =
      ["poetry", "init"] ++ (if demoCfg.interactive then [] else ["--no-interaction"]) ∧
    (oracleAll (poetryCmd demoCfg) = false → (run demoCfg fs0 oracleAll 2024).exit = 1) :=
  poetry_always_invoked demoCfg fs0 oracleAll 2024 (by decide)

end PyInit
